import Mathlib

/-!
Verification of the weight-binarization layers of `nanoGPT_Quan`
(`src/quantization/binarize.py`).

The file shallowly embeds the two custom autograd functions
(`BinaryLinearFunction`, `IRLinearFunction`), the two layer wrappers
(`BinarizedLinear`, `IRLinear`) and the model-surgery routine `binarizer`.

Tensors are embedded at the rank they have in the canonical 2-D linear-layer
use: `input : Fin b → Fin i → _` (batch × in_features),
`weight : Fin o → Fin i → _` (out_features × in_features),
`bias : Fin o → _`.  The sign binarizer is exact arithmetic, so it is
embedded over `ℚ`; the scaled-tanh binarizer needs `tanh`/`sqrt`, so it is
embedded over `ℝ` (idealized real arithmetic in place of floats).

Python exceptions are embedded as an error type `PyErr`; fallible entry
points return `Except PyErr _`.  In-place tensor mutation, where a claim is
about it, is embedded through a heap of tensors (`TensorHeap`).
-/

/-- The Python exceptions the embedded code can raise, together with the two
error classes the specification names (`ConfigurationError`,
`InvalidArgument`) — the latter two exist nowhere in the source; they are
carried here only so that statements can compare against them. -/
inductive PyErr where
  | genericException
  | typeError
  | zeroDivisionError
  | unboundLocalError
  | configurationError
  | invalidArgument
deriving DecidableEq, Repr

/-- A tensor value whose rank matters: `torch.Tensor.squeeze(0)` can turn a
rank-1 vector into a rank-0 scalar, so results of `sum(0)`/`squeeze(0)`
chains are embedded in this type. -/
inductive PyVal (α : Type) where
  | scalar (x : α)
  | vector (v : List α)
deriving DecidableEq

/-- The tensor rank (number of dimensions) of an embedded value. -/
def PyVal.rank {α : Type} : PyVal α → ℕ
  | scalar _ => 0
  | vector _ => 1

/-- Flatten an embedded value to its entries (rank forgotten). -/
def PyVal.toList {α : Type} : PyVal α → List α
  | scalar x => [x]
  | vector v => v

/-- `torch.sign` on an exact rational: `1` for positive, `-1` for negative,
`0` for zero. -/
def torchSign (x : ℚ) : ℚ :=
  if 0 < x then 1 else if x < 0 then -1 else 0

/-- `weight_mask = (weight > 1) | (weight < -1)` from
`BinaryLinearFunction.forward`. -/
def weightMask {o i : ℕ} (weight : Fin o → Fin i → ℚ) : Fin o → Fin i → Bool :=
  fun r c => decide (1 < weight r c) || decide (weight r c < -1)

/-- `A.matmul(B.t())` for `A : b×i`, `B : o×i` (the forward contraction
`input.matmul(weight.t())`). -/
def matmulT {α : Type} [Mul α] [AddCommMonoid α] {b i o : ℕ}
    (A : Fin b → Fin i → α) (B : Fin o → Fin i → α) : Fin b → Fin o → α :=
  fun r c => ∑ j, A r j * B c j

/-- `grad_output.transpose(-1, -2).matmul(input)` for
`G : b×o`, `input : b×i`, giving an `o×i` result. -/
def tmatmul {α : Type} [Mul α] [AddCommMonoid α] {b i o : ℕ}
    (G : Fin b → Fin o → α) (input : Fin b → Fin i → α) : Fin o → Fin i → α :=
  fun r c => ∑ m, G m r * input m c

/-- `grad_output.matmul(weight)` for `G : b×o`, `W : o×i`. -/
def matmulW {α : Type} [Mul α] [AddCommMonoid α] {b i o : ℕ}
    (G : Fin b → Fin o → α) (W : Fin o → Fin i → α) : Fin b → Fin i → α :=
  fun r c => ∑ m, G r m * W m c

/-- `t.masked_fill_(mask, 0.0)`: entries where the mask holds become `0`. -/
def maskedFill {o i : ℕ} (M : Fin o → Fin i → ℚ) (mask : Fin o → Fin i → Bool) :
    Fin o → Fin i → ℚ :=
  fun r c => if mask r c then 0 else M r c

/-- `grad_output.sum(0)`: the batch-dimension sums, one per output column. -/
def sumDim0 {α : Type} [AddCommMonoid α] {b o : ℕ} (G : Fin b → Fin o → α) :
    List α :=
  List.ofFn (fun c => ∑ m, G m c)

/-- `v.squeeze(0)` on a rank-1 tensor: drops the dimension (producing a
rank-0 scalar) exactly when its length is `1`. -/
def squeeze0 {α : Type} [Inhabited α] (v : List α) : PyVal α :=
  if v.length = 1 then .scalar v.headI else .vector v

/-- `BinaryLinearFunction.forward`: binarize the weight by `torch.sign` and
apply the linear layer `input.matmul(weight.t())`, adding the bias when it
is present (`output += bias`, broadcast over the batch dimension). -/
def binaryLinearForward {b i o : ℕ} (input : Fin b → Fin i → ℚ)
    (weight : Fin o → Fin i → ℚ) (bias : Option (Fin o → ℚ)) :
    Fin b → Fin o → ℚ :=
  let weightQ := fun r c => torchSign (weight r c)
  let output := matmulT input weightQ
  match bias with
  | some bv => fun r c => output r c + bv c
  | none => output

/-- The context saved by `BinaryLinearFunction.forward` via
`ctx.save_for_backward(input, weight, weight_mask, bias)` (`weight` has
already been rebound to `torch.sign(weight)` at that point). -/
structure BinaryCtx (b i o : ℕ) where
  input : Fin b → Fin i → ℚ
  weightQ : Fin o → Fin i → ℚ
  mask : Fin o → Fin i → Bool
  bias : Option (Fin o → ℚ)

/-- `ctx.needs_input_grad` for the three differentiable slots
(input, weight, bias). -/
structure NeedsGrad where
  input : Bool
  weight : Bool
  bias : Bool

/-- Build the saved context exactly as `BinaryLinearFunction.forward` does:
the mask comes from the original weight, the saved weight is the sign-
binarized one. -/
def binarySavedCtx {b i o : ℕ} (input : Fin b → Fin i → ℚ)
    (weight : Fin o → Fin i → ℚ) (bias : Option (Fin o → ℚ)) :
    BinaryCtx b i o :=
  { input := input
    weightQ := fun r c => torchSign (weight r c)
    mask := weightMask weight
    bias := bias }

/-- `BinaryLinearFunction.backward` per gradient slot: `grad_input`,
`grad_weight` (masked-filled to `0` where the saved mask holds) and
`grad_bias = grad_output.sum(0).squeeze(0)` — `none` stands for Python's
`None` ("no gradient").  A slot is only computed when the corresponding
`needs_input_grad` flag is set (and, for the bias, when a bias was saved). -/
def binaryLinearBackward {b i o : ℕ} (ctx : BinaryCtx b i o)
    (needs : NeedsGrad) (gradOutput : Fin b → Fin o → ℚ) :
    Option (Fin b → Fin i → ℚ) × Option (Fin o → Fin i → ℚ)
      × Option (PyVal ℚ) :=
  let gradInput := if needs.input then some (matmulW gradOutput ctx.weightQ) else none
  let gradWeight :=
    if needs.weight then
      some (maskedFill (tmatmul gradOutput ctx.input) ctx.mask)
    else none
  let gradBias :=
    match ctx.bias with
    | some _ => if needs.bias then some (squeeze0 (sumDim0 gradOutput)) else none
    | none => none
  (gradInput, gradWeight, gradBias)

/-- `torch.mean(weight)`: the mean over all entries. -/
noncomputable def torchMean {o i : ℕ} (W : Fin o → Fin i → ℝ) : ℝ :=
  (∑ r, ∑ c, W r c) / (o * i)

/-- `torch.std(weight)`: the unbiased (Bessel-corrected) sample standard
deviation over all entries, torch's default. -/
noncomputable def torchStd {o i : ℕ} (W : Fin o → Fin i → ℝ) : ℝ :=
  Real.sqrt ((∑ r, ∑ c, (W r c - torchMean W) ^ 2) / ((o * i : ℝ) - 1))

/-- The context saved by `IRLinearFunction.forward` via
`ctx.save_for_backward(input, weight_b, weight_norm, bias, weight_std, t, k)`. -/
structure IRCtx (b i o : ℕ) where
  input : Fin b → Fin i → ℝ
  weightB : Fin o → Fin i → ℝ
  weightNorm : Fin o → Fin i → ℝ
  bias : Option (Fin o → ℝ)
  weightStd : ℝ
  t : ℝ
  k : ℝ

/-- The computation of `IRLinearFunction.forward` once `1/t` has evaluated
(that is, for a present, nonzero `t`): normalize the weight by its mean and
(unbiased) standard deviation, set `k = max(1/t, 1)`, binarize by
`weight_b = k * tanh(t * weight_norm)`, and apply the linear layer, adding
the bias when present.  Returns the output together with the saved
context. -/
noncomputable def irLinearForwardCore {b i o : ℕ} (input : Fin b → Fin i → ℝ)
    (W : Fin o → Fin i → ℝ) (bias : Option (Fin o → ℝ)) (t : ℝ) :
    (Fin b → Fin o → ℝ) × IRCtx b i o :=
  let weightMean := torchMean W
  let weightStd := torchStd W
  let weightNorm := fun r c => (W r c - weightMean) / weightStd
  let k := max (1 / t) 1
  let weightB := fun r c => k * Real.tanh (t * weightNorm r c)
  let output := matmulT input weightB
  let outputB :=
    match bias with
    | some bv => fun r c => output r c + bv c
    | none => output
  (outputB,
   { input := input, weightB := weightB, weightNorm := weightNorm
     bias := bias, weightStd := weightStd, t := t, k := k })

/-- `IRLinearFunction.forward` including the behaviour of the expression
`1/t` for a Python-float temperature: `t = None` raises `TypeError`
(`unsupported operand type`), `t = 0.0` raises `ZeroDivisionError`, and any
other `t` — positive or not — proceeds to `irLinearForwardCore`.  No
argument validation of any kind appears in the source. -/
noncomputable def irLinearForwardE {b i o : ℕ} (input : Fin b → Fin i → ℝ)
    (W : Fin o → Fin i → ℝ) (bias : Option (Fin o → ℝ)) (t : Option ℝ) :
    Except PyErr ((Fin b → Fin o → ℝ) × IRCtx b i o) :=
  match t with
  | none => .error .typeError
  | some tv =>
    if tv = 0 then .error .zeroDivisionError
    else .ok (irLinearForwardCore input W bias tv)

/-- `IRLinearFunction.backward`: `grad_input = grad_output · weight_b`;
`grad_weight = ((grad_output)ᵀ · input) ⊙ (k * t * (1 - tanh(t*weight_norm)²))`;
`grad_bias = grad_output.sum(0)` (no squeeze); the fourth slot — the
gradient for `t` — is the literal `None` on every path. -/
noncomputable def irLinearBackward {b i o : ℕ} (ctx : IRCtx b i o)
    (needs : NeedsGrad) (gradOutput : Fin b → Fin o → ℝ) :
    Option (Fin b → Fin i → ℝ) × Option (Fin o → Fin i → ℝ)
      × Option (PyVal ℝ) × Option ℝ :=
  let gradInput := if needs.input then some (matmulW gradOutput ctx.weightB) else none
  let gradWeight :=
    if needs.weight then
      some (fun r c =>
        tmatmul gradOutput ctx.input r c *
          (ctx.k * ctx.t * (1 - Real.tanh (ctx.t * ctx.weightNorm r c) ^ 2)))
    else none
  let gradBias :=
    match ctx.bias with
    | some _ => if needs.bias then some (PyVal.vector (sumDim0 gradOutput)) else none
    | none => none
  (gradInput, gradWeight, gradBias, none)

/-- The `BinarizedLinear` module: feature sizes, weight parameter, optional
bias parameter. -/
structure BinarizedLinear where
  in_features : ℕ
  out_features : ℕ
  weight : Fin out_features → Fin in_features → ℚ
  bias : Option (Fin out_features → ℚ)

/-- `BinarizedLinear.__init__` / `reset_parameters`: a bias parameter is
registered only when the `bias` flag is set, and is zero-initialized.  The
randomly drawn weight is a parameter of the embedding. -/
def mkBinarizedLinear (inF outF : ℕ) (biasFlag : Bool)
    (w : Fin outF → Fin inF → ℚ) : BinarizedLinear :=
  { in_features := inF, out_features := outF, weight := w
    bias := if biasFlag then some (fun _ => 0) else none }

/-- `BinarizedLinear.forward`: applies `BinaryLinearFunction` when a bias is
present and otherwise executes `raise Exception` (a bare `Exception`). -/
def BinarizedLinear.forward {b : ℕ} (l : BinarizedLinear)
    (input : Fin b → Fin l.in_features → ℚ) :
    Except PyErr (Fin b → Fin l.out_features → ℚ) :=
  match l.bias with
  | some bv => .ok (binaryLinearForward input l.weight (some bv))
  | none => .error .genericException

/-- The `IRLinear` module: feature sizes, weight, optional bias, and the
temperature attribute `t`, which `__init__`/`reset_parameters` set to
`None`. -/
structure IRLinear where
  in_features : ℕ
  out_features : ℕ
  weight : Fin out_features → Fin in_features → ℝ
  bias : Option (Fin out_features → ℝ)
  t : Option ℝ

/-- `IRLinear.__init__` / `reset_parameters`: `t` starts as `None`, bias is
registered only when the flag is set (zero-initialized). -/
def mkIRLinear (inF outF : ℕ) (biasFlag : Bool)
    (w : Fin outF → Fin inF → ℝ) : IRLinear :=
  { in_features := inF, out_features := outF, weight := w
    bias := if biasFlag then some (fun _ => 0) else none
    t := none }

/-- `IRLinear.forward`: applies `IRLinearFunction` (passing the stored `t`)
when a bias is present and otherwise executes `raise Exception`. -/
noncomputable def IRLinear.forward {b : ℕ} (l : IRLinear)
    (input : Fin b → Fin l.in_features → ℝ) :
    Except PyErr (Fin b → Fin l.out_features → ℝ) :=
  match l.bias with
  | some bv => (irLinearForwardE input l.weight (some bv) l.t).map Prod.fst
  | none => .error .genericException

/-- A module as seen by the surgery routine: `linear` is exactly
`torch.nn.Linear`; `binarized` and `irlayer` are the two replacement layer
classes; `wrapper` is a module that merely contains a linear layer (and so
must not be matched by the exact type check); `other` is any other module. -/
inductive PModule where
  | linear (inF outF : ℕ) (hasBias : Bool)
  | binarized (inF outF : ℕ) (hasBias : Bool)
  | irlayer (inF outF : ℕ) (hasBias : Bool)
  | wrapper (inner : PModule)
  | other (tag : ℕ)
deriving DecidableEq, Repr

/-- A transformer block as traversed by `binarizer`: the named children of
its `mlp` and `attn` sub-modules. -/
structure Block where
  mlp : List (String × PModule)
  attn : List (String × PModule)
deriving DecidableEq, Repr

/-- The model as traversed by `binarizer`: `model.transformer.h`, an ordered
sequence of blocks. -/
structure GPTModel where
  blocks : List Block
deriving DecidableEq, Repr

/-- The three `continue` guards of `binarizer`, in source order:
`kv_only` skips `c_attn_q`, `qv_only` skips `c_attn_k`, `qk_only` skips
`c_attn_v`. -/
def skipName (qkOnly qvOnly kvOnly : Bool) (name : String) : Bool :=
  (kvOnly && name == "c_attn_q") || (qvOnly && name == "c_attn_k")
    || (qkOnly && name == "c_attn_v")

/-- One iteration of a `named_children` loop of `binarizer`: only a module
whose exact type is `nn.Linear` is touched; a skipped one is left as is; a
matched one is replaced by a fresh layer of the requested kind with the same
feature sizes (bias defaulted to enabled).  With an unrecognized
`binarize_layer`, neither branch of the `if`/`elif` assigns the local `b`,
and the assignment `... [sub_name] = b` raises `UnboundLocalError`. -/
def binarizeEntry (binarizeLayer : String) (qkOnly qvOnly kvOnly : Bool)
    (e : String × PModule) : Except PyErr (String × PModule) :=
  match e with
  | (name, PModule.linear inF outF hb) =>
    if skipName qkOnly qvOnly kvOnly name then
      .ok (name, PModule.linear inF outF hb)
    else if binarizeLayer = "basic" then
      .ok (name, PModule.binarized inF outF true)
    else if binarizeLayer = "ir" then
      .ok (name, PModule.irlayer inF outF true)
    else
      .error .unboundLocalError
  | e => .ok e

/-- A full `named_children` loop of `binarizer` over one sub-module group. -/
def binarizeGroup (binarizeLayer : String) (qkOnly qvOnly kvOnly : Bool) :
    List (String × PModule) → Except PyErr (List (String × PModule))
  | [] => .ok []
  | e :: rest => do
    let e' ← binarizeEntry binarizeLayer qkOnly qvOnly kvOnly e
    let rest' ← binarizeGroup binarizeLayer qkOnly qvOnly kvOnly rest
    .ok (e' :: rest')

/-- The body of `binarizer` for one block: first the `mlp` loop, then the
`attn` loop. -/
def binarizeBlock (binarizeLayer : String) (qkOnly qvOnly kvOnly : Bool)
    (blk : Block) : Except PyErr Block := do
  let mlp' ← binarizeGroup binarizeLayer qkOnly qvOnly kvOnly blk.mlp
  let attn' ← binarizeGroup binarizeLayer qkOnly qvOnly kvOnly blk.attn
  .ok ⟨mlp', attn'⟩

/-- The `for i, block in enumerate(model.transformer.h)` loop of
`binarizer`, block by block. -/
def binarizeBlocks (binarizeLayer : String) (qkOnly qvOnly kvOnly : Bool) :
    List Block → Except PyErr (List Block)
  | [] => .ok []
  | blk :: rest => do
    let blk' ← binarizeBlock binarizeLayer qkOnly qvOnly kvOnly blk
    let rest' ← binarizeBlocks binarizeLayer qkOnly qvOnly kvOnly rest
    .ok (blk' :: rest')

/-- `binarizer(model, binarize_layer, qk_only, qv_only, kv_only)`: walk every
block of `model.transformer.h` and rewrite its `mlp` and `attn` children in
place.  The Python function returns `None`; its observable outcome is the
mutated model, or the exception that aborted it, which this embedding
returns as an `Except` value. -/
def binarizer (model : GPTModel) (binarizeLayer : String)
    (qkOnly qvOnly kvOnly : Bool) : Except PyErr GPTModel := do
  let blocks' ← binarizeBlocks binarizeLayer qkOnly qvOnly kvOnly model.blocks
  .ok ⟨blocks'⟩

/-- Whether an entry is a matched (exact-`nn.Linear`, non-skipped) target of
the surgery. -/
def matchedLinear (qkOnly qvOnly kvOnly : Bool) (e : String × PModule) : Bool :=
  match e with
  | (name, PModule.linear _ _ _) => !(skipName qkOnly qvOnly kvOnly name)
  | _ => false

/-- The per-entry replacement as the specification words it: an entry whose
exact type is the dense linear type is overwritten by a new layer of the
requested kind with identical feature sizes and bias enabled, unless its
name is skipped by the flag filter; everything else is untouched. -/
def replaceSpec (binarizeLayer : String) (qkOnly qvOnly kvOnly : Bool)
    (e : String × PModule) : String × PModule :=
  match e with
  | (name, PModule.linear inF outF hb) =>
    if kvOnly ∧ name = "c_attn_q" then (name, PModule.linear inF outF hb)
    else if qvOnly ∧ name = "c_attn_k" then (name, PModule.linear inF outF hb)
    else if qkOnly ∧ name = "c_attn_v" then (name, PModule.linear inF outF hb)
    else if binarizeLayer = "basic" then (name, PModule.binarized inF outF true)
    else (name, PModule.irlayer inF outF true)
  | e => e

/-- A heap of 2-D tensors, for claims about in-place mutation: a tensor
identity is an index into the heap. -/
abbrev TensorHeap (α : Type) := List (List (List α))

/-- Dereference a tensor identity. -/
def heapGet {α : Type} (σ : TensorHeap α) (id : ℕ) : List (List α) :=
  σ.getD id []

/-- Allocate a fresh tensor (as `torch.sign`, `matmul`, … do), returning the
grown heap and the new identity. -/
def heapAlloc {α : Type} (σ : TensorHeap α) (tv : List (List α)) :
    TensorHeap α × ℕ :=
  (σ ++ [tv], σ.length)

/-- Overwrite the tensor at an identity in place (as `+=` and
`masked_fill_` do). -/
def heapSet {α : Type} (σ : TensorHeap α) (id : ℕ) (tv : List (List α)) :
    TensorHeap α :=
  σ.set id tv

/-- Elementwise map over a 2-D tensor value. -/
def lmap {α : Type} (f : α → α) (m : List (List α)) : List (List α) :=
  m.map (List.map f)

/-- Dot product of two rows. -/
def ldot {α : Type} [Mul α] [AddCommMonoid α] (xs ys : List α) : α :=
  (List.zipWith (fun a b => a * b) xs ys).sum

/-- `A.matmul(B.t())` on 2-D tensor values. -/
def lmatmulT {α : Type} [Mul α] [AddCommMonoid α] (A B : List (List α)) :
    List (List α) :=
  A.map (fun row => B.map (fun brow => ldot row brow))

/-- `output += bias`: the bias (stored as a single row) is broadcast-added
to every row of the output. -/
def laddRow {α : Type} [Add α] (M bias : List (List α)) : List (List α) :=
  M.map (fun row => List.zipWith (fun a b => a + b) row bias.headI)

/-- `torch.mean` on a 2-D tensor value. -/
noncomputable def lmean (m : List (List ℝ)) : ℝ :=
  (m.map List.sum).sum / ((m.map List.length).sum : ℕ)

/-- `torch.std` (unbiased) on a 2-D tensor value. -/
noncomputable def lstd (m : List (List ℝ)) : ℝ :=
  Real.sqrt ((m.map (fun row => (row.map (fun x => (x - lmean m) ^ 2)).sum)).sum /
    (((m.map List.length).sum : ℕ) - 1))

/-- `BinaryLinearFunction.forward` at the heap level, recording which tensors
are freshly allocated and which are written in place: the mask and the
sign-binarized weight are fresh tensors (the local name `weight` is rebound,
the parameter itself is not written), the matmul allocates the output, and
`output += bias` writes in place — but only to the fresh output tensor. -/
def binaryForwardHeap (σ : TensorHeap ℚ) (inputId wId : ℕ)
    (biasId : Option ℕ) : TensorHeap ℚ × ℕ :=
  let maskA := heapAlloc σ
    (lmap (fun x => if 1 < x ∨ x < -1 then 1 else 0) (heapGet σ wId))
  let wqA := heapAlloc maskA.1 (lmap torchSign (heapGet maskA.1 wId))
  let outA := heapAlloc wqA.1
    (lmatmulT (heapGet wqA.1 inputId) (heapGet wqA.1 wqA.2))
  let σfin :=
    match biasId with
    | some bid => heapSet outA.1 outA.2
        (laddRow (heapGet outA.1 outA.2) (heapGet outA.1 bid))
    | none => outA.1
  (σfin, outA.2)

/-- `IRLinearFunction.forward` at the heap level (for a present, nonzero
`t`): mean and std are scalars, the normalized weight, the tanh-binarized
weight and the matmul output are fresh tensors, and `output += bias` writes
in place to the fresh output tensor only. -/
noncomputable def irForwardHeap (σ : TensorHeap ℝ) (inputId wId : ℕ)
    (biasId : Option ℕ) (t : ℝ) : TensorHeap ℝ × ℕ :=
  let wm := lmean (heapGet σ wId)
  let ws := lstd (heapGet σ wId)
  let wnA := heapAlloc σ (lmap (fun x => (x - wm) / ws) (heapGet σ wId))
  let k := max (1 / t) 1
  let wbA := heapAlloc wnA.1
    (lmap (fun x => k * Real.tanh (t * x)) (heapGet wnA.1 wnA.2))
  let outA := heapAlloc wbA.1
    (lmatmulT (heapGet wbA.1 inputId) (heapGet wbA.1 wbA.2))
  let σfin :=
    match biasId with
    | some bid => heapSet outA.1 outA.2
        (laddRow (heapGet outA.1 outA.2) (heapGet outA.1 bid))
    | none => outA.1
  (σfin, outA.2)

/-- C1.  Sign-binarizer forward: for every input, weight and bias the output
is `input · sign(weight)ᵀ + bias` with the elementwise sign fixed to map
positives to `1`, negatives to `-1` and `0` to `0`, the bias broadcast over
the batch. -/
theorem binaryLinearForward_spec {b i o : ℕ} (input : Fin b → Fin i → ℚ)
    (weight : Fin o → Fin i → ℚ) (bias : Fin o → ℚ) :
    ∀ r c, binaryLinearForward input weight (some bias) r c =
      (∑ j, input r j *
        (if 0 < weight c j then 1 else if weight c j < 0 then -1 else 0))
        + bias c := by
  intro r c
  simp only [binaryLinearForward, matmulT, torchSign]

/-- C2.  Sign-binarizer backward: when the weight needs a gradient, the
returned `grad_weight` is `(grad_output)ᵀ · input` with entries forced to `0`
exactly where the saved mask `(weight > 1) ∨ (weight < -1)` holds; in
particular it agrees with the plain linear-layer gradient at weights strictly
inside `(-1, 1)` and is exactly `0` at weights of absolute value `> 1`. -/
theorem binaryLinearBackward_gradWeight {b i o : ℕ}
    (input : Fin b → Fin i → ℚ) (weight : Fin o → Fin i → ℚ)
    (bias : Option (Fin o → ℚ)) (needs : NeedsGrad)
    (gradOutput : Fin b → Fin o → ℚ)
    (hw : needs.weight = true) :
    (binaryLinearBackward (binarySavedCtx input weight bias) needs
        gradOutput).2.1 =
      some (fun r c =>
        if 1 < weight r c ∨ weight r c < -1 then 0
        else ∑ m, gradOutput m r * input m c) ∧
    (∀ r c, -1 < weight r c → weight r c < 1 →
      (maskedFill (tmatmul gradOutput input) (weightMask weight)) r c =
        ∑ m, gradOutput m r * input m c) ∧
    (∀ r c, 1 < |weight r c| →
      (maskedFill (tmatmul gradOutput input) (weightMask weight)) r c = 0) := by
  refine ⟨?_, ?_, ?_⟩
  · simp only [binaryLinearBackward, binarySavedCtx, hw, if_true]
    congr 1
    funext r c
    simp only [maskedFill, weightMask, tmatmul, Bool.or_eq_true, decide_eq_true_eq]
  · intro r c h1 h2
    simp only [maskedFill, weightMask, tmatmul, Bool.or_eq_true, decide_eq_true_eq]
    rw [if_neg]
    push_neg
    exact ⟨le_of_lt h2, le_of_lt h1⟩
  · intro r c habs
    simp only [maskedFill, weightMask, Bool.or_eq_true, decide_eq_true_eq]
    rw [if_pos]
    rcases lt_abs.mp habs with h | h
    · exact Or.inl h
    · exact Or.inr (by linarith)

/-- Witness for C2 at a concrete instance. -/
theorem binaryLinearBackward_gradWeight_witness :
    (⟨true, true, true⟩ : NeedsGrad).weight = true ∧
    (binaryLinearBackward
        (binarySavedCtx (fun _ _ : Fin 1 => (2 : ℚ))
          (fun _ _ : Fin 1 => (3 : ℚ)) none)
        ⟨true, true, true⟩ (fun _ _ : Fin 1 => (5 : ℚ))).2.1 =
      some (fun r c : Fin 1 =>
        if 1 < (fun _ _ : Fin 1 => (3 : ℚ)) r c ∨
            (fun _ _ : Fin 1 => (3 : ℚ)) r c < -1 then 0
        else ∑ m, (fun _ _ : Fin 1 => (5 : ℚ)) m r *
          (fun _ _ : Fin 1 => (2 : ℚ)) m c) :=
  ⟨rfl, (binaryLinearBackward_gradWeight
    (fun _ _ : Fin 1 => (2 : ℚ)) (fun _ _ : Fin 1 => (3 : ℚ)) none
    ⟨true, true, true⟩ (fun _ _ : Fin 1 => (5 : ℚ)) rfl).1⟩

/-- C3.  Scaled-tanh forward: for every input, weight, bias and positive
scalar `t`, the quantized weight is `k * tanh(t * weight_norm)` with
`weight_norm = (weight - mean(weight)) / std(weight)` and `k = max(1/t, 1)`,
and the output is `input · weight_qᵀ + bias`; the mean is the mean over all
entries and the std is the unbiased sample standard deviation. -/
theorem irLinearForward_spec {b i o : ℕ} (input : Fin b → Fin i → ℝ)
    (W : Fin o → Fin i → ℝ) (bias : Fin o → ℝ) (t : ℝ) (ht : 0 < t) :
    (∀ r c, (irLinearForwardCore input W (some bias) t).1 r c =
      (∑ j, input r j *
        (max (1 / t) 1 *
          Real.tanh (t * ((W c j - torchMean W) / torchStd W)))) + bias c) ∧
    torchMean W = (∑ r, ∑ c, W r c) / ((o : ℝ) * (i : ℝ)) ∧
    torchStd W =
      Real.sqrt ((∑ r, ∑ c, (W r c - torchMean W) ^ 2) / ((o : ℝ) * (i : ℝ) - 1)) := by
  exact ⟨fun r c => rfl, rfl, rfl⟩

/-- Witness for C3 at a concrete instance. -/
theorem irLinearForward_spec_witness :
    (0 : ℝ) < 1 ∧
    (irLinearForwardCore (fun _ _ : Fin 1 => (1 : ℝ))
        (fun _ _ : Fin 1 => (1 : ℝ)) (some (fun _ => (0 : ℝ))) 1).1 0 0 =
      (∑ j : Fin 1, (fun _ _ : Fin 1 => (1 : ℝ)) 0 j *
        (max (1 / 1) 1 *
          Real.tanh (1 * (((fun _ _ : Fin 1 => (1 : ℝ)) 0 j -
            torchMean (fun _ _ : Fin 1 => (1 : ℝ))) /
              torchStd (fun _ _ : Fin 1 => (1 : ℝ)))))) + (fun _ : Fin 1 => (0 : ℝ)) 0 :=
  ⟨by norm_num,
   (irLinearForward_spec (fun _ _ : Fin 1 => (1 : ℝ)) (fun _ _ : Fin 1 => (1 : ℝ))
     (fun _ => (0 : ℝ)) 1 (by norm_num)).1 0 0⟩

/-- C4.  Scaled-tanh backward: when the weight needs a gradient, the
returned `grad_weight` is `((grad_output)ᵀ · input)` multiplied elementwise
by the surrogate derivative `k * t * (1 - tanh(t * weight_norm)²)` built
from the saved intermediates, and the temperature slot of the returned
4-tuple is unconditionally `None`. -/
theorem irLinearBackward_gradWeight {b i o : ℕ} (input : Fin b → Fin i → ℝ)
    (W : Fin o → Fin i → ℝ) (bias : Option (Fin o → ℝ)) (t : ℝ)
    (needs : NeedsGrad) (G : Fin b → Fin o → ℝ)
    (hw : needs.weight = true) :
    (irLinearBackward (irLinearForwardCore input W bias t).2 needs G).2.1 =
      some (fun r c =>
        (∑ m, G m r * input m c) *
          (max (1 / t) 1 * t *
            (1 - Real.tanh (t * ((W r c - torchMean W) / torchStd W)) ^ 2))) ∧
    (irLinearBackward (irLinearForwardCore input W bias t).2 needs G).2.2.2 = none := by
  constructor
  · simp only [irLinearBackward, irLinearForwardCore, hw, if_true, tmatmul]
  · rfl

/-- Witness for C4 at a concrete instance. -/
theorem irLinearBackward_gradWeight_witness :
    (⟨true, true, true⟩ : NeedsGrad).weight = true ∧
    (irLinearBackward
        (irLinearForwardCore (fun _ _ : Fin 1 => (1 : ℝ))
          (fun _ _ : Fin 1 => (1 : ℝ)) none 2).2
        ⟨true, true, true⟩ (fun _ _ : Fin 1 => (1 : ℝ))).2.2.2 = none :=
  ⟨rfl, (irLinearBackward_gradWeight (fun _ _ : Fin 1 => (1 : ℝ))
    (fun _ _ : Fin 1 => (1 : ℝ)) none 2 ⟨true, true, true⟩
    (fun _ _ : Fin 1 => (1 : ℝ)) rfl).2⟩

/-- `squeeze(0)` never changes the entries, only (possibly) the rank. -/
theorem squeeze0_toList {α : Type} [Inhabited α] (v : List α) :
    (squeeze0 v).toList = v := by
  unfold squeeze0
  split
  · rename_i h
    rcases List.length_eq_one.mp h with ⟨a, ha⟩
    subst ha
    rfl
  · rfl

/-- The rank after `squeeze(0)`: `0` exactly on length-1 vectors. -/
theorem squeeze0_rank {α : Type} [Inhabited α] (v : List α) :
    (squeeze0 v).rank = if v.length = 1 then 0 else 1 := by
  unfold squeeze0
  split <;> rename_i h <;> simp [PyVal.rank, h]

/-- C5 counterexample: in `BinaryLinearFunction.backward` the bias gradient
is `grad_output.sum(0).squeeze(0)`; at `out_features = 1` the squeeze fires
and the result is a rank-0 scalar, not the rank-1 batch-sum vector the claim
asserts. -/
theorem binary_gradBias_squeeze_cex :
    (binaryLinearBackward
        (binarySavedCtx (fun _ _ : Fin 1 => (1 : ℚ)) (fun _ _ : Fin 1 => (0 : ℚ))
          (some (fun _ => 0)))
        ⟨true, true, true⟩ (fun _ _ : Fin 1 => (5 : ℚ))).2.2 =
      some (PyVal.scalar 5) ∧
    (PyVal.scalar (5 : ℚ)).rank ≠ 1 ∧
    (binaryLinearBackward
        (binarySavedCtx (fun _ _ : Fin 1 => (1 : ℚ)) (fun _ _ : Fin 1 => (0 : ℚ))
          (some (fun _ => 0)))
        ⟨true, true, true⟩ (fun _ _ : Fin 1 => (5 : ℚ))).2.2 ≠
      some (PyVal.vector (sumDim0 (fun _ _ : Fin 1 => (5 : ℚ)))) := by
  refine ⟨?_, by decide, ?_⟩ <;>
    simp [binaryLinearBackward, binarySavedCtx, sumDim0, squeeze0,
      List.ofFn_succ, List.ofFn_zero, Fin.sum_univ_one]

/-- C5 amended: in both backward passes the bias gradient (computed when a
bias was saved and it needs a gradient) holds the batch-dimension sums of
`grad_output`; `IRLinearFunction.backward` applies no squeeze and always
returns a rank-1 vector, but `BinaryLinearFunction.backward` additionally
applies `squeeze(0)`, so its result collapses to a rank-0 scalar exactly
when `out_features = 1` (the entries are unchanged either way). -/
theorem gradBias_amended {b i o b2 i2 o2 : ℕ}
    (input : Fin b → Fin i → ℚ) (weight : Fin o → Fin i → ℚ) (bv : Fin o → ℚ)
    (needs : NeedsGrad) (G : Fin b → Fin o → ℚ)
    (inputR : Fin b2 → Fin i2 → ℝ) (W : Fin o2 → Fin i2 → ℝ) (bvR : Fin o2 → ℝ)
    (t : ℝ) (G2 : Fin b2 → Fin o2 → ℝ)
    (hn : needs.bias = true) :
    (binaryLinearBackward (binarySavedCtx input weight (some bv)) needs G).2.2 =
      some (squeeze0 (sumDim0 G)) ∧
    (squeeze0 (sumDim0 G) : PyVal ℚ).toList = List.ofFn (fun c => ∑ m, G m c) ∧
    (squeeze0 (sumDim0 G) : PyVal ℚ).rank = (if o = 1 then 0 else 1) ∧
    (irLinearBackward (irLinearForwardCore inputR W (some bvR) t).2 needs G2).2.2.1 =
      some (PyVal.vector (sumDim0 G2)) ∧
    (PyVal.vector (sumDim0 G2)).rank = 1 := by
  refine ⟨?_, ?_, ?_, ?_, rfl⟩
  · simp only [binaryLinearBackward, binarySavedCtx, hn, if_true]
  · exact squeeze0_toList _
  · rw [squeeze0_rank]
    simp [sumDim0]
  · simp only [irLinearBackward, irLinearForwardCore, hn, if_true]

/-- Witness for the amended C5 at a concrete instance. -/
theorem gradBias_amended_witness :
    (⟨true, true, true⟩ : NeedsGrad).bias = true ∧
    (binaryLinearBackward
        (binarySavedCtx (fun _ _ : Fin 1 => (1 : ℚ)) (fun _ _ : Fin 1 => (0 : ℚ))
          (some (fun _ => 0)))
        ⟨true, true, true⟩ (fun _ _ : Fin 1 => (7 : ℚ))).2.2 =
      some (squeeze0 (sumDim0 (fun _ _ : Fin 1 => (7 : ℚ)))) :=
  ⟨rfl, (gradBias_amended (fun _ _ : Fin 1 => (1 : ℚ)) (fun _ _ : Fin 1 => (0 : ℚ))
    (fun _ => 0) ⟨true, true, true⟩ (fun _ _ : Fin 1 => (7 : ℚ))
    (fun _ _ : Fin 1 => (1 : ℝ)) (fun _ _ : Fin 1 => (1 : ℝ)) (fun _ => (0 : ℝ))
    1 (fun _ _ : Fin 1 => (1 : ℝ)) rfl).1⟩

/-- C6 counterexample: `IRLinearFunction.forward` performs no validation of
`t`; with the non-positive temperature `t = -1` it succeeds and produces an
output (`k = max(1/t, 1)` just evaluates to `1`), contradicting "fails
whenever `t` is absent or non-positive". -/
theorem ir_negative_t_cex :
    irLinearForwardE (fun _ _ : Fin 1 => (1 : ℝ)) (fun _ _ : Fin 1 => (1 : ℝ))
        none (some (-1)) =
      .ok (irLinearForwardCore (fun _ _ : Fin 1 => (1 : ℝ))
        (fun _ _ : Fin 1 => (1 : ℝ)) none (-1)) ∧
    (-1 : ℝ) < 0 := by
  constructor
  · simp only [irLinearForwardE]
    rw [if_neg (by norm_num)]
  · norm_num

/-- C6 amended: the scaled-tanh forward fails only for an absent `t`
(`TypeError` from `1/None`) or a zero `t` (`ZeroDivisionError` from `1/0.0`
on a Python-float temperature) — neither is an `InvalidArgument` — and for
every nonzero `t`, negative ones included, it succeeds and produces an
output. -/
theorem irLinearForwardE_amended {b i o : ℕ} (input : Fin b → Fin i → ℝ)
    (W : Fin o → Fin i → ℝ) (bias : Option (Fin o → ℝ)) (tv : ℝ)
    (ht : tv ≠ 0) :
    irLinearForwardE input W bias none =
      (.error PyErr.typeError : Except PyErr ((Fin b → Fin o → ℝ) × IRCtx b i o)) ∧
    irLinearForwardE input W bias (some 0) = .error PyErr.zeroDivisionError ∧
    irLinearForwardE input W bias (some tv) =
      .ok (irLinearForwardCore input W bias tv) ∧
    PyErr.typeError ≠ PyErr.invalidArgument ∧
    PyErr.zeroDivisionError ≠ PyErr.invalidArgument := by
  refine ⟨rfl, ?_, ?_, by decide, by decide⟩
  · simp [irLinearForwardE]
  · simp only [irLinearForwardE]
    rw [if_neg ht]

/-- Witness for the amended C6 at a concrete instance. -/
theorem irLinearForwardE_amended_witness :
    ((-1 : ℝ) ≠ 0) ∧
    irLinearForwardE (fun _ _ : Fin 1 => (2 : ℝ)) (fun _ _ : Fin 1 => (3 : ℝ))
        none (some (-1)) =
      .ok (irLinearForwardCore (fun _ _ : Fin 1 => (2 : ℝ))
        (fun _ _ : Fin 1 => (3 : ℝ)) none (-1)) :=
  ⟨by norm_num, (irLinearForwardE_amended (fun _ _ : Fin 1 => (2 : ℝ))
    (fun _ _ : Fin 1 => (3 : ℝ)) none (-1) (by norm_num)).2.2.1⟩

/-- C7 counterexample: a bias-less layer's forward executes the bare
`raise Exception` of the source — there is no `ConfigurationError` class in
the code at all, so the raised error is not that specific error. -/
theorem biasless_forward_cex :
    (mkBinarizedLinear 1 1 false (fun _ _ => 0)).forward
        (fun _ _ : Fin 1 => (0 : ℚ)) = .error PyErr.genericException ∧
    (mkIRLinear 1 1 false (fun _ _ => 0)).forward
        (fun _ _ : Fin 1 => (0 : ℝ)) = .error PyErr.genericException ∧
    PyErr.genericException ≠ PyErr.configurationError :=
  ⟨rfl, rfl, by decide⟩

/-- C7 amended: for both layer types, construction without a bias is
permitted (the bias slot is simply `None`), and every forward call on such
an instance fails — but with a bare `Exception`, not a dedicated
`ConfigurationError` — returning no output. -/
theorem biasless_forward_amended {b inF outF : ℕ}
    (w : Fin outF → Fin inF → ℚ) (wr : Fin outF → Fin inF → ℝ)
    (input : Fin b → Fin inF → ℚ) (inputR : Fin b → Fin inF → ℝ) :
    (mkBinarizedLinear inF outF false w).bias = none ∧
    (mkIRLinear inF outF false wr).bias = none ∧
    (mkBinarizedLinear inF outF false w).forward input =
      .error PyErr.genericException ∧
    (mkIRLinear inF outF false wr).forward inputR =
      .error PyErr.genericException :=
  ⟨rfl, rfl, rfl, rfl⟩

/-- The boolean skip filter, unfolded to its three flag/name pairings. -/
theorem skipName_iff (qk qv kv : Bool) (name : String) :
    skipName qk qv kv name = true ↔
      (kv = true ∧ name = "c_attn_q") ∨ (qv = true ∧ name = "c_attn_k")
        ∨ (qk = true ∧ name = "c_attn_v") := by
  simp [skipName, Bool.or_eq_true, Bool.and_eq_true, beq_iff_eq, or_assoc]

/-- With a recognized kind, one loop iteration of `binarizer` acts exactly
as the specification's per-entry replacement. -/
theorem binarizeEntry_ok (bl : String) (qk qv kv : Bool)
    (h : bl = "basic" ∨ bl = "ir") (e : String × PModule) :
    binarizeEntry bl qk qv kv e = .ok (replaceSpec bl qk qv kv e) := by
  rcases e with ⟨name, m⟩
  cases m with
  | linear inF outF hb =>
    simp only [binarizeEntry, replaceSpec]
    by_cases hskip : skipName qk qv kv name = true
    · rw [if_pos hskip]
      rcases (skipName_iff qk qv kv name).mp hskip with h1 | h2 | h3
      · rw [if_pos h1]
      · by_cases h1 : kv = true ∧ name = "c_attn_q"
        · rw [if_pos h1]
        · rw [if_neg h1, if_pos h2]
      · by_cases h1 : kv = true ∧ name = "c_attn_q"
        · rw [if_pos h1]
        · by_cases h2 : qv = true ∧ name = "c_attn_k"
          · rw [if_neg h1, if_pos h2]
          · rw [if_neg h1, if_neg h2, if_pos h3]
    · rw [if_neg hskip]
      have hns : ¬((kv = true ∧ name = "c_attn_q") ∨ (qv = true ∧ name = "c_attn_k")
          ∨ (qk = true ∧ name = "c_attn_v")) :=
        fun hc => hskip ((skipName_iff qk qv kv name).mpr hc)
      rw [if_neg (fun hc => hns (Or.inl hc)),
        if_neg (fun hc => hns (Or.inr (Or.inl hc))),
        if_neg (fun hc => hns (Or.inr (Or.inr hc)))]
      rcases h with h | h <;> subst h <;> simp
  | binarized inF outF hb => rfl
  | irlayer inF outF hb => rfl
  | wrapper inner => rfl
  | other tag => rfl

/-- With a recognized kind, a whole `named_children` loop maps the
specification's per-entry replacement over the group. -/
theorem binarizeGroup_ok (bl : String) (qk qv kv : Bool)
    (h : bl = "basic" ∨ bl = "ir") (l : List (String × PModule)) :
    binarizeGroup bl qk qv kv l = .ok (l.map (replaceSpec bl qk qv kv)) := by
  induction l with
  | nil => rfl
  | cons e rest ih =>
    simp only [binarizeGroup, binarizeEntry_ok bl qk qv kv h e, ih, List.map_cons]
    rfl

/-- C8.  Model surgery: with a recognized kind, `binarizer` rewrites, in
every block and in the `mlp` and `attn` groups independently, exactly the
entries whose exact type is the dense linear type, each to a fresh layer of
the requested kind with identical feature sizes and bias enabled — except
the flag-named skips — and leaves everything else (skipped entries, wrappers
of linears, other modules) as it was. -/
theorem binarizer_spec (model : GPTModel) (bl : String) (qk qv kv : Bool)
    (h : bl = "basic" ∨ bl = "ir") :
    binarizer model bl qk qv kv =
      .ok ⟨model.blocks.map (fun blk =>
        ⟨blk.mlp.map (replaceSpec bl qk qv kv),
         blk.attn.map (replaceSpec bl qk qv kv)⟩)⟩ ∧
    (∀ inF outF hb, kv = true →
      replaceSpec bl qk qv kv ("c_attn_q", PModule.linear inF outF hb) =
        ("c_attn_q", PModule.linear inF outF hb)) ∧
    (∀ inF outF hb, qv = true →
      replaceSpec bl qk qv kv ("c_attn_k", PModule.linear inF outF hb) =
        ("c_attn_k", PModule.linear inF outF hb)) ∧
    (∀ inF outF hb, qk = true →
      replaceSpec bl qk qv kv ("c_attn_v", PModule.linear inF outF hb) =
        ("c_attn_v", PModule.linear inF outF hb)) ∧
    (∀ name inF outF hb, skipName qk qv kv name = false →
      replaceSpec bl qk qv kv (name, PModule.linear inF outF hb) =
        (name, if bl = "basic" then PModule.binarized inF outF true
               else PModule.irlayer inF outF true)) ∧
    (∀ name m, replaceSpec bl qk qv kv (name, PModule.wrapper m) =
      (name, PModule.wrapper m)) := by
  refine ⟨?_, ?_, ?_, ?_, ?_, fun name m => rfl⟩
  · have hblocks : ∀ bs : List Block,
        binarizeBlocks bl qk qv kv bs =
          .ok (bs.map (fun blk =>
            ⟨blk.mlp.map (replaceSpec bl qk qv kv),
             blk.attn.map (replaceSpec bl qk qv kv)⟩)) := by
      intro bs
      induction bs with
      | nil => rfl
      | cons blk rest ih =>
        simp only [binarizeBlocks, binarizeBlock,
          binarizeGroup_ok bl qk qv kv h, ih, List.map_cons]
        rfl
    simp only [binarizer, hblocks]
    rfl
  · intro inF outF hb hkv
    simp [replaceSpec, hkv]
  · intro inF outF hb hqv
    simp [replaceSpec, hqv]
  · intro inF outF hb hqk
    simp [replaceSpec, hqk]
  · intro name inF outF hb hns
    have hn : ¬ skipName qk qv kv name = true := by simp [hns]
    have hns3 : ¬((kv = true ∧ name = "c_attn_q") ∨ (qv = true ∧ name = "c_attn_k")
        ∨ (qk = true ∧ name = "c_attn_v")) :=
      fun hc => hn ((skipName_iff qk qv kv name).mpr hc)
    simp only [replaceSpec]
    rw [if_neg (fun hc => hns3 (Or.inl hc)),
      if_neg (fun hc => hns3 (Or.inr (Or.inl hc))),
      if_neg (fun hc => hns3 (Or.inr (Or.inr hc)))]
    rcases h with h | h <;> subst h <;> simp

/-- Witness for C8: the specification's own test scenario — a 2-block model
with `c_attn_q`/`c_attn_k`/`c_attn_v` linears in both groups, replaced with
`kv_only = True`: `c_attn_q` stays, everything else dense becomes a
binarized layer with the same feature sizes, and a module that merely wraps
a linear is untouched. -/
theorem binarizer_spec_witness :
    ("basic" = "basic" ∨ "basic" = "ir") ∧
    binarizer
      ⟨[⟨[("c_attn_q", PModule.linear 2 3 true), ("c_attn_k", PModule.linear 4 5 true),
          ("c_attn_v", PModule.linear 6 7 true)],
         [("c_attn_q", PModule.linear 2 3 true), ("c_attn_k", PModule.linear 4 5 true),
          ("c_attn_v", PModule.linear 6 7 true)]⟩,
        ⟨[("fc", PModule.linear 8 9 false), ("w", PModule.wrapper (PModule.linear 8 9 true))],
         [("proj", PModule.other 0)]⟩]⟩
      "basic" false false true =
    .ok ⟨[⟨[("c_attn_q", PModule.linear 2 3 true), ("c_attn_k", PModule.binarized 4 5 true),
          ("c_attn_v", PModule.binarized 6 7 true)],
         [("c_attn_q", PModule.linear 2 3 true), ("c_attn_k", PModule.binarized 4 5 true),
          ("c_attn_v", PModule.binarized 6 7 true)]⟩,
        ⟨[("fc", PModule.binarized 8 9 true), ("w", PModule.wrapper (PModule.linear 8 9 true))],
         [("proj", PModule.other 0)]⟩]⟩ := by
  refine ⟨Or.inl rfl, ?_⟩
  rw [(binarizer_spec _ "basic" false false true (Or.inl rfl)).1]
  rfl

/-- With an unrecognized kind, one loop iteration raises `UnboundLocalError`
exactly on an exact-`nn.Linear`, non-skipped entry (the local `b` was never
assigned), and is a no-op otherwise. -/
theorem binarizeEntry_badkind (bl : String) (qk qv kv : Bool)
    (h1 : bl ≠ "basic") (h2 : bl ≠ "ir") (e : String × PModule) :
    binarizeEntry bl qk qv kv e =
      (if matchedLinear qk qv kv e then .error PyErr.unboundLocalError
       else .ok e) := by
  rcases e with ⟨name, m⟩
  cases m with
  | linear inF outF hb =>
    simp only [binarizeEntry, matchedLinear]
    by_cases hskip : skipName qk qv kv name = true
    · simp [hskip]
    · simp only [Bool.not_eq_true] at hskip
      simp [hskip, h1, h2]
  | binarized inF outF hb => rfl
  | irlayer inF outF hb => rfl
  | wrapper inner => rfl
  | other tag => rfl

/-- With an unrecognized kind, a `named_children` loop fails iff it meets a
matched entry, and otherwise leaves the group unchanged. -/
theorem binarizeGroup_badkind (bl : String) (qk qv kv : Bool)
    (h1 : bl ≠ "basic") (h2 : bl ≠ "ir") (l : List (String × PModule)) :
    binarizeGroup bl qk qv kv l =
      (if l.any (matchedLinear qk qv kv) then .error PyErr.unboundLocalError
       else .ok l) := by
  induction l with
  | nil => rfl
  | cons e rest ih =>
    simp only [binarizeGroup, binarizeEntry_badkind bl qk qv kv h1 h2 e, ih,
      List.any_cons]
    by_cases he : matchedLinear qk qv kv e = true
    · simp [he]
      rfl
    · by_cases hr : rest.any (matchedLinear qk qv kv) = true
      · simp [he, hr]
        rfl
      · simp [he, hr]
        rfl

/-- C9 counterexample: with the unrecognized kind `"foo"`, `binarizer` does
not fail with a `ConfigurationError` — on a model containing a dense
sub-layer it raises `UnboundLocalError`, and on a model with no dense
sub-layer it silently succeeds. -/
theorem binarizer_badkind_cex :
    binarizer ⟨[⟨[("fc", PModule.linear 2 2 true)], []⟩]⟩ "foo"
        false false false = .error PyErr.unboundLocalError ∧
    PyErr.unboundLocalError ≠ PyErr.configurationError ∧
    binarizer ⟨[⟨[("w", PModule.wrapper (PModule.linear 2 2 true))], []⟩]⟩ "foo"
        false false false =
      .ok ⟨[⟨[("w", PModule.wrapper (PModule.linear 2 2 true))], []⟩]⟩ :=
  ⟨rfl, by decide, rfl⟩

/-- C9 amended: `binarizer` returns no value (its whole outcome is the
mutation or the exception); with a kind that is neither `"basic"` nor
`"ir"` it raises `UnboundLocalError` — not a `ConfigurationError` — if and
only if some block contains an exact-`nn.Linear`, non-skipped sub-layer in
its `mlp` or `attn` group, and otherwise completes silently leaving the
model unchanged. -/
theorem binarizer_badkind_amended (model : GPTModel) (bl : String)
    (qk qv kv : Bool) (h1 : bl ≠ "basic") (h2 : bl ≠ "ir") :
    binarizer model bl qk qv kv =
      (if model.blocks.any (fun blk =>
          blk.mlp.any (matchedLinear qk qv kv)
            || blk.attn.any (matchedLinear qk qv kv))
       then .error PyErr.unboundLocalError
       else .ok model) ∧
    PyErr.unboundLocalError ≠ PyErr.configurationError := by
  refine ⟨?_, by decide⟩
  have hblocks : ∀ bs : List Block,
      binarizeBlocks bl qk qv kv bs =
        (if bs.any (fun blk =>
            blk.mlp.any (matchedLinear qk qv kv)
              || blk.attn.any (matchedLinear qk qv kv))
         then .error PyErr.unboundLocalError
         else .ok bs) := by
    intro bs
    induction bs with
    | nil => rfl
    | cons blk rest ih =>
      simp only [binarizeBlocks, binarizeBlock,
        binarizeGroup_badkind bl qk qv kv h1 h2, ih, List.any_cons]
      by_cases hm : blk.mlp.any (matchedLinear qk qv kv) = true
      · simp [hm]
        rfl
      · by_cases ha : blk.attn.any (matchedLinear qk qv kv) = true
        · simp [hm, ha]
          rfl
        · by_cases hr : rest.any (fun blk =>
              blk.mlp.any (matchedLinear qk qv kv)
                || blk.attn.any (matchedLinear qk qv kv)) = true
          · simp [hm, ha, hr]
            rfl
          · simp [hm, ha, hr]
            rfl
  simp only [binarizer, hblocks]
  by_cases hall : model.blocks.any (fun blk =>
      blk.mlp.any (matchedLinear qk qv kv)
        || blk.attn.any (matchedLinear qk qv kv)) = true
  · simp [hall]
    rfl
  · simp [hall]
    rfl

/-- Witness for the amended C9 at a concrete instance. -/
theorem binarizer_badkind_amended_witness :
    ("foo" ≠ "basic") ∧ ("foo" ≠ "ir") ∧
    binarizer ⟨[⟨[("fc", PModule.linear 2 2 true)], []⟩]⟩ "foo"
        false false false =
      (if (⟨[⟨[("fc", PModule.linear 2 2 true)], []⟩]⟩ : GPTModel).blocks.any
          (fun blk => blk.mlp.any (matchedLinear false false false)
            || blk.attn.any (matchedLinear false false false))
       then .error PyErr.unboundLocalError
       else .ok ⟨[⟨[("fc", PModule.linear 2 2 true)], []⟩]⟩) :=
  ⟨by decide, by decide,
   (binarizer_badkind_amended ⟨[⟨[("fc", PModule.linear 2 2 true)], []⟩]⟩ "foo"
     false false false (by decide) (by decide)).1⟩

/-- Allocation never disturbs an existing heap cell. -/
theorem heapGet_append {α : Type} (σ l : TensorHeap α) (id : ℕ)
    (h : id < σ.length) : heapGet (σ ++ l) id = heapGet σ id := by
  unfold heapGet
  induction σ generalizing id with
  | nil => exact absurd h (by simp)
  | cons x xs ih =>
    cases id with
    | zero => rfl
    | succ n => exact ih n (Nat.lt_of_succ_lt_succ h)

/-- An in-place write touches no other heap cell. -/
theorem heapGet_set_ne {α : Type} (σ : TensorHeap α) (j id : ℕ)
    (tv : List (List α)) (h : id ≠ j) :
    heapGet (heapSet σ j tv) id = heapGet σ id := by
  unfold heapGet heapSet
  induction σ generalizing id j with
  | nil => rfl
  | cons x xs ih =>
    cases j with
    | zero =>
      cases id with
      | zero => exact absurd rfl h
      | succ n => rfl
    | succ m =>
      cases id with
      | zero => rfl
      | succ n => exact ih m n (fun hc => h (by rw [hc]))

/-- The sign-binarizer forward writes only to the freshly allocated output
tensor: every pre-existing heap cell is unchanged. -/
theorem binaryForwardHeap_frame (σ : TensorHeap ℚ) (inputId wId : ℕ)
    (biasId : Option ℕ) (id : ℕ) (hid : id < σ.length) :
    heapGet (binaryForwardHeap σ inputId wId biasId).1 id = heapGet σ id := by
  cases biasId with
  | none =>
    simp only [binaryForwardHeap, heapAlloc]
    rw [heapGet_append, heapGet_append, heapGet_append] <;>
      (try simp only [List.length_append, List.length_cons, List.length_nil]) <;>
      omega
  | some bid =>
    simp only [binaryForwardHeap, heapAlloc]
    rw [heapGet_set_ne, heapGet_append, heapGet_append, heapGet_append] <;>
      (try simp only [List.length_append, List.length_cons, List.length_nil]) <;>
      omega

/-- The scaled-tanh forward writes only to the freshly allocated output
tensor: every pre-existing heap cell is unchanged. -/
theorem irForwardHeap_frame (τ : TensorHeap ℝ) (inputId wId : ℕ)
    (biasId : Option ℕ) (t : ℝ) (id : ℕ) (hid : id < τ.length) :
    heapGet (irForwardHeap τ inputId wId biasId t).1 id = heapGet τ id := by
  cases biasId with
  | none =>
    simp only [irForwardHeap, heapAlloc]
    rw [heapGet_append, heapGet_append, heapGet_append] <;>
      (try simp only [List.length_append, List.length_cons, List.length_nil]) <;>
      omega
  | some bid =>
    simp only [irForwardHeap, heapAlloc]
    rw [heapGet_set_ne, heapGet_append, heapGet_append, heapGet_append] <;>
      (try simp only [List.length_append, List.length_cons, List.length_nil]) <;>
      omega

/-- C10.  Frame property of both forward passes: the layer's stored weight
tensor and bias vector are left unchanged — `torch.sign` / the tanh chain
allocate fresh tensors (the local `weight` name is merely rebound), and the
only in-place write (`output += bias`) targets the freshly allocated output,
never the parameters. -/
theorem forward_preserves_params (σ : TensorHeap ℚ) (inputId wId : ℕ)
    (biasId : Option ℕ) (τ : TensorHeap ℝ) (inputIdR wIdR : ℕ)
    (biasIdR : Option ℕ) (t : ℝ)
    (hw : wId < σ.length) (hb : ∀ bid, biasId = some bid → bid < σ.length)
    (hwR : wIdR < τ.length) (hbR : ∀ bid, biasIdR = some bid → bid < τ.length) :
    (heapGet (binaryForwardHeap σ inputId wId biasId).1 wId = heapGet σ wId ∧
     ∀ bid, biasId = some bid →
       heapGet (binaryForwardHeap σ inputId wId biasId).1 bid = heapGet σ bid) ∧
    (heapGet (irForwardHeap τ inputIdR wIdR biasIdR t).1 wIdR = heapGet τ wIdR ∧
     ∀ bid, biasIdR = some bid →
       heapGet (irForwardHeap τ inputIdR wIdR biasIdR t).1 bid = heapGet τ bid) :=
  ⟨⟨binaryForwardHeap_frame σ inputId wId biasId wId hw,
    fun bid hbid => binaryForwardHeap_frame σ inputId wId biasId bid (hb bid hbid)⟩,
   ⟨irForwardHeap_frame τ inputIdR wIdR biasIdR t wIdR hwR,
    fun bid hbid => irForwardHeap_frame τ inputIdR wIdR biasIdR t bid (hbR bid hbid)⟩⟩

/-- Witness for C10 at a concrete three-cell heap (input, weight, bias). -/
theorem forward_preserves_params_witness :
    ((1 : ℕ) < ([[[1]], [[2]], [[3]]] : TensorHeap ℚ).length) ∧
    heapGet (binaryForwardHeap [[[1]], [[2]], [[3]]] 0 1 (some 2)).1 1 =
      heapGet ([[[1]], [[2]], [[3]]] : TensorHeap ℚ) 1 :=
  ⟨by decide,
   (forward_preserves_params [[[1]], [[2]], [[3]]] 0 1 (some 2)
     [[[1]], [[2]], [[3]]] 0 1 (some 2) 1 (by decide)
     (fun bid h => by injection h with h; subst h; decide)
     (by simp) (fun bid h => by injection h with h; subst h; simp)).1.1⟩
